import Mathlib

/-!
Verification of the event-aggregation pipeline of `events_providers.py`
(functions `haversine_km`, `fetch_eventbrite_events`, `fetch_campus_events`,
`merge_and_dedupe`, `get_events_for_query`).

Embedding conventions:
* Python floats are modelled as real numbers (`ℝ`).
* A Python `datetime` is modelled by `PyDatetime`: its wall-clock reading in
  minutes together with the `utcoffset` of its tzinfo (`none` = naive).
  Comparing a naive with an aware datetime raises `TypeError` in Python,
  modelled by `pyLe` returning `Except.error`.
* Network traffic is an oracle carried in `World`: for each adapter, either
  the upstream payload (already shaped the way the code reads it — JSON
  strings holding timestamps are represented by their `fromisoformat` parse
  results, an unparsable string by a dedicated constructor) or `none`,
  meaning `requests.get`/`raise_for_status` raised.
* A value read with a Python truthiness test (`or` defaults, `if not token`)
  is modelled as `Option` with `none` standing for a missing OR falsy value.
* Exceptions escaping a function are modelled with `Except PyErr`; the
  per-item `try/except: continue` blocks are modelled by `Option`-returning
  item parsers used with `filterMap`.
* `list.sort(key=...)` raises `TypeError` exactly when the key list contains
  both naive and aware datetimes (any comparison between the two kinds
  raises, and sorting a list containing both kinds necessarily performs such
  a comparison); on a consistent list it is a stable ascending sort,
  modelled by `List.mergeSort`.
-/

/-- Python exceptions that can escape the embedded functions: a
network/HTTP error from `requests.get` / `raise_for_status`, or a
`TypeError` from comparing naive and aware datetimes. -/
inductive PyErr where
  | netError : PyErr
  | typeError : PyErr
deriving DecidableEq, Repr

/-- A Python `datetime`: wall-clock reading in minutes since the epoch plus
the `utcoffset` of its tzinfo in minutes (`none` = naive datetime). -/
structure PyDatetime where
  wall : Int
  offset : Option Int
deriving DecidableEq, Repr

/-- Python `datetime.__le__`: naive pairs compare by wall time, aware pairs
by UTC-adjusted time, and a naive/aware mix raises `TypeError`. -/
def pyLe (a b : PyDatetime) : Except PyErr Bool :=
  match a.offset, b.offset with
  | none, none => .ok (a.wall ≤ b.wall)
  | some x, some y => .ok (a.wall - x ≤ b.wall - y)
  | _, _ => .error .typeError

/-- Python `datetime.date()` (used as `isoformat` string in the dedup key):
the wall-clock calendar day, modelled as day number since the epoch.  The
ISO string of a calendar date corresponds injectively to this number. -/
def dateKey (d : PyDatetime) : Int :=
  d.wall.fdiv 1440

/-- Comparison key under which Python sorts a tz-consistent list of
datetimes: wall time for naive values, UTC-adjusted time for aware ones
(for an all-naive or all-aware list this is exactly `datetime.__lt__`). -/
def sortKey (d : PyDatetime) : Int :=
  d.wall - d.offset.getD 0

/-- Python `str.lower` (ASCII case folding suffices for the strings the
code manipulates). -/
def strLower (s : String) : String :=
  ⟨s.data.map Char.toLower⟩

/-- The `Event` dataclass of `events_providers.py`. -/
structure Event where
  title : String
  description : String
  start_time : PyDatetime
  end_time : Option PyDatetime
  venue_name : String
  address : String
  lat : Option ℝ
  lng : Option ℝ
  url : String
  source : String

/-- The dedup signature computed in `merge_and_dedupe`:
`(e.title.lower(), e.start_time.date().isoformat(), e.venue_name.lower())`. -/
def eventSig (e : Event) : String × Int × String :=
  (strLower e.title, dateKey e.start_time, strLower e.venue_name)

/-- The Boolean order on events used by `merged.sort(key=lambda e: e.start_time)`
once the keys are known to be tz-consistent. -/
def eventLE (a b : Event) : Bool :=
  sortKey a.start_time ≤ sortKey b.start_time

/-- Degree-to-radian conversion `math.radians`. -/
noncomputable def radians (x : ℝ) : ℝ :=
  x * Real.pi / 180

/-- The function `haversine_km(lat1, lon1, lat2, lon2)`: haversine
great-circle distance in km with Earth radius `R = 6371.0`. -/
noncomputable def haversine_km (lat1 lon1 lat2 lon2 : ℝ) : ℝ :=
  2 * 6371.0 * Real.arcsin (Real.sqrt
    (Real.sin (radians (lat2 - lat1) / 2) ^ 2 +
      Real.cos (radians lat1) * Real.cos (radians lat2) *
        Real.sin (radians (lon2 - lon1) / 2) ^ 2))

/-- Venue object of an Eventbrite API item, at the shape the code reads it.
String fields read with a truthiness test are `Option String` with `none`
for missing-or-falsy.  `latitude`/`longitude` model
the conditional float parse of the venue's latitude/longitude strings:
`none` = missing/falsy (the event gets `None`), `some none` = truthy but
unparsable (`float` raises `ValueError`, skipping the item),
`some (some x)` = truthy and parsing to `x`. -/
structure EBVenue where
  name : Option String
  address_1 : Option String
  city : Option String
  region : Option String
  postal_code : Option String
  country : Option String
  latitude : Option (Option ℝ)
  longitude : Option (Option ℝ)

/-- An empty venue dict, used by the fallback in `venue = item.get venue-or-empty`. -/
def EBVenue.empty : EBVenue :=
  ⟨none, none, none, none, none, none, none, none⟩

/-- One item of the Eventbrite response's `events` array, at the shape the
code reads it.  `name_text` models the nested read of the name object's text with
`none` for a missing name object or missing/falsy text (both yield the
default); likewise `description_text` and `url`.  `start_utc` models
the parse of the start object's utc string after replacing a Z suffix
with a +00:00 offset:
`none` = the key is missing (`KeyError`) or the string does not parse
(`ValueError`) — either way the item is skipped; `some d` = the parsed
datetime (a `Z`/offset-suffixed upstream string yields an aware value).
`end_utc` is read only when the end object and its utc string are truthy: `none` = absent (the event gets `end_time = None`), `some none` =
present but unparsable (`ValueError` skips the item), `some (some d)` = the
parsed datetime. -/
structure EBItem where
  name_text : Option String
  description_text : Option String
  start_utc : Option PyDatetime
  end_utc : Option (Option PyDatetime)
  venue : Option EBVenue
  url : Option String

/-- Body of the `for item in data.get("events", [])` loop of
`fetch_eventbrite_events`: `none` models the `except Exception: continue`
paths, `some e` the appended `Event`. -/
def parseEBItem (item : EBItem) : Option Event :=
  match item.start_utc with
  | none => none
  | some start =>
    let endParsed : Option (Option PyDatetime) :=
      match item.end_utc with
      | none => some none
      | some none => none
      | some (some d) => some (some d)
    match endParsed with
    | none => none
    | some endTime =>
      let venue := item.venue.getD EBVenue.empty
      let venue_name := venue.name.getD "Unknown venue"
      let address_parts :=
        [venue.address_1, venue.city, venue.region, venue.postal_code,
          venue.country].filterMap id
      let address := String.intercalate ", " address_parts
      let latParsed : Option (Option ℝ) :=
        match venue.latitude with
        | none => some none
        | some none => none
        | some (some x) => some (some x)
      let lngParsed : Option (Option ℝ) :=
        match venue.longitude with
        | none => some none
        | some none => none
        | some (some x) => some (some x)
      match latParsed, lngParsed with
      | some ev_lat, some ev_lng =>
        some
          { title := item.name_text.getD "Untitled Event"
            description := item.description_text.getD ""
            start_time := start
            end_time := endTime
            venue_name := venue_name
            address := address
            lat := ev_lat
            lng := ev_lng
            url := item.url.getD ""
            source := "Eventbrite" }
      | _, _ => none

/-- One `<div class="event-item">` of the campus page, at the shape the
code reads it.  `title`/`venue` are `none` when the sub-tag is missing (the
code then substitutes the default), `href` is `none` when there is no link
tag with an `href` attribute.  `date` models
`datetime.fromisoformat(date_tag.get_text(strip=True))`: `none` = the tag
is missing (so `date_str` is `""`) or the text does not parse — either way
`ValueError` skips the item; `some d` = the parsed datetime (the assumed
`"YYYY-MM-DD HH:MM"` format yields a naive value). -/
structure CampusDiv where
  title : Option String
  date : Option PyDatetime
  venue : Option String
  href : Option String

/-- The chained comparison `start_date <= start <= end_date` of
`fetch_campus_events` (short-circuiting, may raise `TypeError`). -/
def campusInRange (start_date end_date start : PyDatetime) : Except PyErr Bool := do
  let b1 ← pyLe start_date start
  if b1 then pyLe start end_date else pure false

/-- Body of the `for div in soup.select(".event-item")` loop of
`fetch_campus_events`: `none` models the `except Exception: continue`
paths (unparsable date, or a `TypeError` from the range comparison) and the
`continue` for an out-of-range date; `some e` the appended `Event`. -/
def parseCampusDiv (pageUrl : String) (start_date end_date : PyDatetime)
    (div : CampusDiv) : Option Event :=
  match div.date with
  | none => none
  | some start =>
    match campusInRange start_date end_date start with
    | .error _ => none
    | .ok false => none
    | .ok true =>
      let venue_name := div.venue.getD "On campus"
      some
        { title := div.title.getD "Untitled event"
          description := "Campus event"
          start_time := start
          end_time := none
          venue_name := venue_name
          address := venue_name
          lat := none
          lng := none
          url := div.href.getD pageUrl
          source := "Campus" }

/-- The process environment and the network, the two ambient inputs of the
pipeline.  A `none` token/url models an unset or empty environment
variable; a `none` response models `requests.get` or `raise_for_status`
raising. -/
structure World where
  eventbrite_token : Option String
  eventbrite_response : Option (List EBItem)
  campus_url : Option String
  campus_response : Option (List CampusDiv)

/-- The function `fetch_eventbrite_events(lat, lng, radius_km, start_date,
end_date)`.  The query arguments only shape the request sent upstream, so
the response oracle of `w` already accounts for them. -/
def fetch_eventbrite_events (w : World) (lat lng radius_km : ℝ)
    (start_date end_date : PyDatetime) : Except PyErr (List Event) :=
  match w.eventbrite_token with
  | none => .ok []
  | some _ =>
    match w.eventbrite_response with
    | none => .error .netError
    | some items => .ok (items.filterMap parseEBItem)

/-- The function `fetch_campus_events(start_date, end_date)`. -/
def fetch_campus_events (w : World) (start_date end_date : PyDatetime) :
    Except PyErr (List Event) :=
  match w.campus_url with
  | none => .ok []
  | some url =>
    match w.campus_response with
    | none => .error .netError
    | some divs => .ok (divs.filterMap (parseCampusDiv url start_date end_date))

/-- The `for lst in events_lists: for e in lst:` loop of `merge_and_dedupe`,
with the `sigs` set modelled as a list: an event is appended exactly when
its signature has not been seen yet. -/
def dedupeAux (sigs : List (String × Int × String)) :
    List Event → List Event
  | [] => []
  | e :: rest =>
    if eventSig e ∈ sigs then dedupeAux sigs rest
    else e :: dedupeAux (eventSig e :: sigs) rest

/-- Whether a list of events has timezone-consistent start times (all naive
or all aware) — exactly the condition under which Python can sort it by
`start_time` without raising `TypeError`. -/
def tzConsistent (l : List Event) : Bool :=
  l.all (fun e => e.start_time.offset.isNone) ||
    l.all (fun e => e.start_time.offset.isSome)

/-- The function `merge_and_dedupe(events_lists)`: first-wins dedup by
signature over the concatenation, then `merged.sort(key=lambda e:
e.start_time)` — which raises `TypeError` exactly when the deduped list
mixes naive and aware start times, and otherwise sorts stably in ascending
key order. -/
def merge_and_dedupe (events_lists : List (List Event)) :
    Except PyErr (List Event) :=
  if tzConsistent (dedupeAux [] events_lists.flatten) then
    .ok ((dedupeAux [] events_lists.flatten).mergeSort eventLE)
  else .error .typeError

/-- The radius-filter loop of `get_events_for_query` (lines building
`filtered`): events with both coordinates are kept iff their haversine
distance to the query origin is at most `radius_km`; all other events are
kept unconditionally. -/
noncomputable def radius_filter (lat lng radius_km : ℝ) (events : List Event) :
    List Event :=
  events.filter fun e =>
    match e.lat, e.lng with
    | some elat, some elng => haversine_km lat lng elat elng ≤ radius_km
    | _, _ => true

/-- The function `get_events_for_query(lat, lng, radius_km, start_date,
end_date)`: call both providers, merge and dedupe, then radius-filter. -/
noncomputable def get_events_for_query (w : World) (lat lng radius_km : ℝ)
    (start_date end_date : PyDatetime) : Except PyErr (List Event) :=
  match fetch_eventbrite_events w lat lng radius_km start_date end_date with
  | .error err => .error err
  | .ok events_from_eventbrite =>
    match fetch_campus_events w start_date end_date with
    | .error err => .error err
    | .ok campus_events =>
      match merge_and_dedupe [events_from_eventbrite, campus_events] with
      | .error err => .error err
      | .ok events => .ok (radius_filter lat lng radius_km events)

/-- Predicate: `e` occurs in `l` and no earlier element of `l` shares its
dedup signature (so `e` is the event that first-wins dedup keeps for its
signature). -/
def isFirstOfSig (l : List Event) (e : Event) : Prop :=
  ∃ l₁ l₂, l = l₁ ++ e :: l₂ ∧ ∀ x ∈ l₁, eventSig x ≠ eventSig e

/-- A naive datetime at wall-clock minute `m`. -/
def dtNaive (m : Int) : PyDatetime := ⟨m, none⟩

/-- A UTC-aware datetime at wall-clock minute `m`. -/
def dtUtc (m : Int) : PyDatetime := ⟨m, some 0⟩

/-- Concrete event: the copy of a duplicated event from the first adapter. -/
def evJazzA : Event :=
  ⟨"Jazz Night", "adapter A copy", dtNaive 600, none, "Hall A", "1 Main St",
    none, none, "urlA", "Eventbrite"⟩

/-- Concrete event: a second copy with the same dedup signature as
`evJazzA` (same lowercased title, same calendar date, same lowercased
venue) but different description and url. -/
def evJazzB : Event :=
  ⟨"jazz night", "adapter B copy", dtNaive 630, none, "hall a", "2 Main St",
    none, none, "urlB", "Campus"⟩

/-- Concrete event starting early (minute 100). -/
def evEarly : Event :=
  ⟨"Early Show", "", dtNaive 100, none, "P", "P", none, none, "", "Campus"⟩

/-- Concrete event starting late (minute 700). -/
def evLate : Event :=
  ⟨"Late Show", "", dtNaive 700, none, "Q", "Q", none, none, "", "Campus"⟩

/-- Concrete campus page item that parses cleanly to an in-range event. -/
def divGood : CampusDiv :=
  ⟨some "Art Walk", some (dtNaive 500), some "Plaza", some "urlC"⟩

/-- World where the Eventbrite adapter is configured but its HTTP request
fails, while the campus adapter is configured and healthy. -/
def wNetFail : World :=
  ⟨some "token", none, some "campusurl", some [divGood]⟩

/-- World where neither adapter has its configuration set. -/
def wNoConfig : World := ⟨none, some [], none, some []⟩

/-- World where only the campus adapter is configured, and healthy. -/
def wCampusOnly : World := ⟨none, none, some "campusurl", some [divGood]⟩

/-- The event `divGood` parses to (page url substituted is irrelevant since
the div carries its own link). -/
def evArtWalk : Event :=
  ⟨"Art Walk", "Campus event", dtNaive 500, none, "Plaza", "Plaza",
    none, none, "urlC", "Campus"⟩

/-- Concrete Eventbrite item whose timestamps are UTC-aware. -/
def ebItemAware : EBItem :=
  ⟨some "Concert", some "desc", some (dtUtc 800), none,
    some ⟨some "Arena", none, none, none, none, none, none, none⟩,
    some "urlE"⟩

/-- The event `ebItemAware` parses to. -/
def evConcert : Event :=
  ⟨"Concert", "desc", dtUtc 800, none, "Arena", "", none, none, "urlE",
    "Eventbrite"⟩

/-- Concrete campus page item with the documented naive date format. -/
def divNaive : CampusDiv :=
  ⟨some "Lecture", some (dtNaive 700), some "Aula", none⟩

/-- The event `divNaive` parses to when the page url is `"campusurl"`. -/
def evLecture : Event :=
  ⟨"Lecture", "Campus event", dtNaive 700, none, "Aula", "Aula", none, none,
    "campusurl", "Campus"⟩

/-- World where both adapters are configured and healthy: Eventbrite
returns one aware-timestamped item, the campus page one naive-dated item. -/
def wMixed : World :=
  ⟨some "token", some [ebItemAware], some "campusurl", some [divNaive]⟩

/-- Concrete Eventbrite item whose venue sits exactly at coordinates
`(0, 0)`. -/
def ebItemOrigin : EBItem :=
  ⟨some "Origin Fair", none, some (dtUtc 900), none,
    some ⟨some "Square", none, none, none, none, none, some (some 0),
      some (some 0)⟩,
    none⟩

/-- The event `ebItemOrigin` parses to. -/
def evOrigin : Event :=
  ⟨"Origin Fair", "", dtUtc 900, none, "Square", "", some 0, some 0, "",
    "Eventbrite"⟩

/-- World where only the Eventbrite adapter is configured, returning the
single item `ebItemOrigin`. -/
def wOrigin : World := ⟨some "token", some [ebItemOrigin], none, none⟩

/-- Concrete Eventbrite item whose venue carries a latitude but no
longitude. -/
def ebItemHalf : EBItem :=
  ⟨some "Half Geo", none, some (dtUtc 1000), none,
    some ⟨some "Spot", none, none, none, none, none, some (some 40), none⟩,
    none⟩

/-- The event `ebItemHalf` parses to: latitude present, longitude absent. -/
def evHalfGeo : Event :=
  ⟨"Half Geo", "", dtUtc 1000, none, "Spot", "", some 40, none, "",
    "Eventbrite"⟩

/-- World where only the Eventbrite adapter is configured, returning the
single item `ebItemHalf`. -/
def wHalf : World := ⟨some "token", some [ebItemHalf], none, none⟩

/-- Concrete event carrying a latitude but no longitude. -/
def evOnlyLat : Event :=
  ⟨"Only Lat", "", dtNaive 50, none, "V", "V", some 1, none, "", "Campus"⟩

theorem haversine_km_self (lat lon : ℝ) : haversine_km lat lon lat lon = 0 := by
  simp [haversine_km, radians]

theorem haversine_km_comm (lat1 lon1 lat2 lon2 : ℝ) :
    haversine_km lat1 lon1 lat2 lon2 = haversine_km lat2 lon2 lat1 lon1 := by
  unfold haversine_km
  have h1 : radians (lat1 - lat2) / 2 = -(radians (lat2 - lat1) / 2) := by
    unfold radians; ring
  have h2 : radians (lon1 - lon2) / 2 = -(radians (lon2 - lon1) / 2) := by
    unfold radians; ring
  rw [h1, h2, Real.sin_neg, Real.sin_neg]
  ring_nf

/-- C9: the Geo Utility `haversine_km` (haversine formula, Earth radius
6371.0 km, degree inputs converted to radians) satisfies
`distance(p, p) = 0` for every point `p` and `distance(a, b) = distance(b, a)`
for every pair of points. -/
theorem C9_haversine_self_symm :
    (∀ lat lon : ℝ, haversine_km lat lon lat lon = 0) ∧
    (∀ lat1 lon1 lat2 lon2 : ℝ,
      haversine_km lat1 lon1 lat2 lon2 = haversine_km lat2 lon2 lat1 lon1) :=
  ⟨haversine_km_self, haversine_km_comm⟩

theorem isFirstOfSig_cons {a e : Event} {rest : List Event} :
    isFirstOfSig (a :: rest) e ↔
      e = a ∨ (eventSig a ≠ eventSig e ∧ isFirstOfSig rest e) := by
  constructor
  · rintro ⟨l₁, l₂, hdec, hpref⟩
    cases l₁ with
    | nil =>
      rw [List.nil_append] at hdec
      exact Or.inl (List.cons.inj hdec).1.symm
    | cons b l₁' =>
      rw [List.cons_append] at hdec
      have h1 : a = b := (List.cons.inj hdec).1
      have h2 : rest = l₁' ++ e :: l₂ := (List.cons.inj hdec).2
      refine Or.inr ⟨?_, l₁', l₂, h2, fun x hx => hpref x (List.mem_cons_of_mem _ hx)⟩
      exact h1 ▸ hpref b (List.mem_cons_self b l₁')
  · rintro (rfl | ⟨hne, l₁, l₂, hdec, hpref⟩)
    · exact ⟨[], rest, rfl, by simp⟩
    · refine ⟨a :: l₁, l₂, by rw [hdec, List.cons_append], ?_⟩
      intro x hx
      rcases List.mem_cons.mp hx with rfl | hx'
      · exact hne
      · exact hpref x hx'

theorem mem_dedupeAux (l : List Event) : ∀ (sigs : List (String × Int × String)) (e : Event),
    e ∈ dedupeAux sigs l ↔ eventSig e ∉ sigs ∧ isFirstOfSig l e := by
  induction l with
  | nil =>
    intro sigs e
    simp [dedupeAux, isFirstOfSig]
  | cons a rest ih =>
    intro sigs e
    unfold dedupeAux
    by_cases h : eventSig a ∈ sigs
    · rw [if_pos h, ih, isFirstOfSig_cons]
      constructor
      · rintro ⟨hns, hfirst⟩
        exact ⟨hns, Or.inr ⟨fun hs => hns (hs ▸ h), hfirst⟩⟩
      · rintro ⟨hns, (rfl | ⟨_, hfirst⟩)⟩
        · exact absurd h hns
        · exact ⟨hns, hfirst⟩
    · rw [if_neg h]
      rw [List.mem_cons, ih, isFirstOfSig_cons]
      constructor
      · rintro (rfl | ⟨hns, hfirst⟩)
        · exact ⟨h, Or.inl rfl⟩
        · have hne : eventSig a ≠ eventSig e :=
            fun hs => hns (hs ▸ List.mem_cons_self _ _)
          exact ⟨fun hs => hns (List.mem_cons_of_mem _ hs), Or.inr ⟨hne, hfirst⟩⟩
      · rintro ⟨hns, (rfl | ⟨hne, hfirst⟩)⟩
        · exact Or.inl rfl
        · refine Or.inr ⟨?_, hfirst⟩
          intro hmem
          rcases List.mem_cons.mp hmem with hs | hs
          · exact hne hs.symm
          · exact hns hs

theorem dedupeAux_sig_pairwise (l : List Event) :
    ∀ sigs, (dedupeAux sigs l).Pairwise (fun a b => eventSig a ≠ eventSig b) := by
  induction l with
  | nil => intro sigs; simp [dedupeAux]
  | cons a rest ih =>
    intro sigs
    unfold dedupeAux
    by_cases h : eventSig a ∈ sigs
    · rw [if_pos h]; exact ih sigs
    · rw [if_neg h]
      refine List.Pairwise.cons ?_ (ih _)
      intro b hb
      have hmem := ((mem_dedupeAux rest _ b).mp hb).1
      exact fun he => hmem (he ▸ List.mem_cons_self _ _)

theorem isFirstOfSig_mem {l : List Event} {e : Event} (h : isFirstOfSig l e) :
    e ∈ l := by
  obtain ⟨l₁, l₂, rfl, -⟩ := h
  exact List.mem_append.mpr (Or.inr (List.mem_cons_self _ _))

theorem eventLE_trans (a b c : Event) (hab : eventLE a b = true)
    (hbc : eventLE b c = true) : eventLE a c = true := by
  simp only [eventLE, decide_eq_true_iff] at *
  omega

theorem eventLE_total (a b : Event) : (eventLE a b || eventLE b a) = true := by
  simp only [eventLE, Bool.or_eq_true, decide_eq_true_iff]
  omega

theorem merge_and_dedupe_ok {lists : List (List Event)} {out : List Event}
    (h : merge_and_dedupe lists = Except.ok out) :
    out = (dedupeAux [] lists.flatten).mergeSort eventLE ∧
      tzConsistent (dedupeAux [] lists.flatten) = true := by
  unfold merge_and_dedupe at h
  split at h
  · exact ⟨(Except.ok.inj h).symm, by assumption⟩
  · cases h

theorem merge_and_dedupe_eq_ok {lists : List (List Event)} {m : List Event}
    (hd : dedupeAux [] lists.flatten = m)
    (hc : tzConsistent m = true)
    (hs : m.Pairwise fun a b => eventLE a b = true) :
    merge_and_dedupe lists = Except.ok m := by
  unfold merge_and_dedupe
  rw [hd, if_pos hc, List.mergeSort_of_sorted hs]

/-- C2: `merge_and_dedupe` keeps, for each dedup signature (lowercased
title, calendar date of `start_time`, lowercased venue name), exactly the
first event encountered in adapter-iteration order over the concatenated
input lists, and drops every later event sharing that signature: an event
is in the output iff it is the first of its signature, and the output has
pairwise distinct signatures. -/
theorem C2_dedup_first_wins (lists : List (List Event)) (out : List Event)
    (h : merge_and_dedupe lists = Except.ok out) :
    (∀ e, e ∈ out ↔ isFirstOfSig lists.flatten e) ∧
      out.Pairwise (fun a b => eventSig a ≠ eventSig b) := by
  obtain ⟨rfl, _⟩ := merge_and_dedupe_ok h
  have hperm := List.mergeSort_perm (dedupeAux [] lists.flatten) eventLE
  constructor
  · intro e
    rw [hperm.mem_iff, mem_dedupeAux]
    simp
  · exact (hperm.pairwise_iff fun hxy => Ne.symm hxy).mpr
      (dedupeAux_sig_pairwise _ _)

theorem C2_dedup_first_wins_witness :
    merge_and_dedupe [[evJazzA], [evJazzB]] = Except.ok [evJazzA] ∧
      (evJazzA ∈ [evJazzA] ↔ isFirstOfSig ([[evJazzA], [evJazzB]].flatten) evJazzA) ∧
      [evJazzA].Pairwise (fun a b => eventSig a ≠ eventSig b) := by
  have h : merge_and_dedupe [[evJazzA], [evJazzB]] = Except.ok [evJazzA] :=
    merge_and_dedupe_eq_ok rfl rfl (by simp)
  exact ⟨h, (C2_dedup_first_wins _ _ h).1 evJazzA, (C2_dedup_first_wins _ _ h).2⟩

theorem pairwise_eventLE_filter_key (l : List Event) (k : Int) :
    (l.filter fun e => sortKey e.start_time = k).Pairwise
      fun a b => eventLE a b = true := by
  apply List.pairwise_of_forall_mem_list
  intro a ha b hb
  rw [List.mem_filter] at ha hb
  have ha' := of_decide_eq_true ha.2
  have hb' := of_decide_eq_true hb.2
  simp [eventLE, ha', hb']

theorem mergeSort_filter_key (l : List Event) (k : Int) :
    ((l.mergeSort eventLE).filter fun e => sortKey e.start_time = k) =
      l.filter fun e => sortKey e.start_time = k := by
  have hsub : (l.filter fun e => sortKey e.start_time = k).Sublist
      (l.mergeSort eventLE) :=
    List.sublist_mergeSort eventLE_trans eventLE_total
      (pairwise_eventLE_filter_key l k) (List.filter_sublist l)
  have hall : ∀ a ∈ (l.filter fun e => sortKey e.start_time = k),
      decide (sortKey a.start_time = k) = true :=
    fun a ha => (List.mem_filter.mp ha).2
  have hsub2 : (l.filter fun e => sortKey e.start_time = k).Sublist
      ((l.mergeSort eventLE).filter fun e => sortKey e.start_time = k) := by
    have h2 := hsub.filter fun e => sortKey e.start_time = k
    rwa [List.filter_eq_self.mpr hall] at h2
  have hperm : ((l.mergeSort eventLE).filter fun e => sortKey e.start_time = k).Perm
      (l.filter fun e => sortKey e.start_time = k) :=
    (List.mergeSort_perm l eventLE).filter _
  exact (hsub2.eq_of_length hperm.length_eq.symm).symm

theorem tzConsistent_pair {l : List Event} (hc : tzConsistent l = true)
    {a b : Event} (ha : a ∈ l) (hb : b ∈ l) :
    (a.start_time.offset = none ∧ b.start_time.offset = none) ∨
      (a.start_time.offset.isSome ∧ b.start_time.offset.isSome) := by
  unfold tzConsistent at hc
  rw [Bool.or_eq_true] at hc
  rcases hc with h | h
  · rw [List.all_eq_true] at h
    exact Or.inl ⟨Option.isNone_iff_eq_none.mp (h a ha),
      Option.isNone_iff_eq_none.mp (h b hb)⟩
  · rw [List.all_eq_true] at h
    exact Or.inr ⟨h a ha, h b hb⟩

theorem pyLe_ok_of_kinds {a b : PyDatetime} (hk : sortKey a ≤ sortKey b)
    (h : (a.offset = none ∧ b.offset = none) ∨
      (a.offset.isSome ∧ b.offset.isSome)) :
    pyLe a b = Except.ok true := by
  rcases h with ⟨ha, hb⟩ | ⟨ha, hb⟩
  · simp only [sortKey, ha, hb, Option.getD_none, sub_zero] at hk
    simp [pyLe, ha, hb, hk]
  · obtain ⟨x, hx⟩ := Option.isSome_iff_exists.mp ha
    obtain ⟨y, hy⟩ := Option.isSome_iff_exists.mp hb
    simp only [sortKey, hx, hy, Option.getD_some] at hk
    simp [pyLe, hx, hy, hk]

/-- C4: on every input for which the merge step returns, the returned list
is sorted non-decreasingly by `start_time` (in Python's datetime order
`pyLe`), and events whose sort key is equal keep the relative order they
had after the dedup step (stability, stated as: filtering the output by
any fixed sort key gives the same list as filtering the dedup result). -/
theorem C4_sorted_stable (lists : List (List Event)) (out : List Event)
    (h : merge_and_dedupe lists = Except.ok out) :
    out.Pairwise (fun a b => pyLe a.start_time b.start_time = Except.ok true) ∧
      ∀ k : Int, (out.filter fun e => sortKey e.start_time = k) =
        ((dedupeAux [] lists.flatten).filter fun e => sortKey e.start_time = k) := by
  obtain ⟨rfl, hc⟩ := merge_and_dedupe_ok h
  have hperm := List.mergeSort_perm (dedupeAux [] lists.flatten) eventLE
  constructor
  · have hs := List.sorted_mergeSort eventLE_trans eventLE_total
      (dedupeAux [] lists.flatten)
    refine hs.imp_of_mem ?_
    intro a b ha hb hab
    have hk : sortKey a.start_time ≤ sortKey b.start_time :=
      of_decide_eq_true hab
    exact pyLe_ok_of_kinds hk
      (tzConsistent_pair hc (hperm.subset ha) (hperm.subset hb))
  · exact fun k => mergeSort_filter_key _ k

theorem C4_sorted_stable_witness :
    merge_and_dedupe [[evEarly], [evLate]] = Except.ok [evEarly, evLate] ∧
      List.Pairwise
        (fun a b => pyLe a.start_time b.start_time = Except.ok true)
        [evEarly, evLate] ∧
      ([evEarly, evLate].filter fun e => sortKey e.start_time = 100) =
        ((dedupeAux [] ([[evEarly], [evLate]].flatten)).filter
          fun e => sortKey e.start_time = 100) := by
  have h : merge_and_dedupe [[evEarly], [evLate]] = Except.ok [evEarly, evLate] :=
    merge_and_dedupe_eq_ok rfl rfl (by simp [evEarly, evLate, eventLE]; decide)
  exact ⟨h, (C4_sorted_stable _ _ h).1, (C4_sorted_stable _ _ h).2 100⟩

theorem mem_radius_filter {lat lng r : ℝ} {l : List Event} {e : Event} :
    e ∈ radius_filter lat lng r l ↔
      e ∈ l ∧ ∀ elat elng, e.lat = some elat → e.lng = some elng →
        haversine_km lat lng elat elng ≤ r := by
  unfold radius_filter
  rw [List.mem_filter]
  rcases hlat : e.lat with _ | elat <;> rcases hlng : e.lng with _ | elng <;>
    simp [hlat, hlng]

theorem get_events_for_query_eq {w : World} {lat lng r : ℝ}
    {sd ed : PyDatetime} {eb cam m : List Event}
    (hEb : fetch_eventbrite_events w lat lng r sd ed = Except.ok eb)
    (hCam : fetch_campus_events w sd ed = Except.ok cam)
    (hm : merge_and_dedupe [eb, cam] = Except.ok m) :
    get_events_for_query w lat lng r sd ed =
      Except.ok (radius_filter lat lng r m) := by
  unfold get_events_for_query
  rw [hEb, hCam]
  show (match merge_and_dedupe [eb, cam] with
    | Except.error err => Except.error err
    | Except.ok events => Except.ok (radius_filter lat lng r events)) =
      Except.ok (radius_filter lat lng r m)
  rw [hm]

theorem dedupeAux_subset {l : List Event} {sigs : List (String × Int × String)}
    {e : Event} (h : e ∈ dedupeAux sigs l) : e ∈ l :=
  isFirstOfSig_mem ((mem_dedupeAux l sigs e).mp h).2

/-- C3: an event surviving dedup is kept by the radius filter of
`get_events_for_query` iff its coordinates, when both present, put it
within haversine distance `radius_km` of the query origin (events not
carrying both coordinates are kept unconditionally); consequently an event
located exactly at the query origin is kept for every non-negative radius,
an event at distance strictly greater than the radius is excluded, and an
event without coordinates is always kept. -/
theorem C3_radius_filter_semantics (w : World) (qlat qlng r : ℝ)
    (sd ed : PyDatetime) (eb cam m : List Event)
    (hEb : fetch_eventbrite_events w qlat qlng r sd ed = Except.ok eb)
    (hCam : fetch_campus_events w sd ed = Except.ok cam)
    (hm : merge_and_dedupe [eb, cam] = Except.ok m) :
    get_events_for_query w qlat qlng r sd ed =
      Except.ok (radius_filter qlat qlng r m) ∧
    (∀ e, e ∈ radius_filter qlat qlng r m ↔ e ∈ m ∧
      ∀ elat elng, e.lat = some elat → e.lng = some elng →
        haversine_km qlat qlng elat elng ≤ r) ∧
    (0 ≤ r → ∀ e ∈ m, e.lat = some qlat → e.lng = some qlng →
      e ∈ radius_filter qlat qlng r m) ∧
    (∀ e ∈ m, ∀ elat elng, e.lat = some elat → e.lng = some elng →
      r < haversine_km qlat qlng elat elng →
      e ∉ radius_filter qlat qlng r m) ∧
    (∀ e ∈ m, e.lat = none → e.lng = none →
      e ∈ radius_filter qlat qlng r m) := by
  refine ⟨get_events_for_query_eq hEb hCam hm, fun e => mem_radius_filter,
    ?_, ?_, ?_⟩
  · intro hr e he hlat hlng
    refine mem_radius_filter.mpr ⟨he, ?_⟩
    intro elat elng h1 h2
    rw [hlat, Option.some.injEq] at h1
    rw [hlng, Option.some.injEq] at h2
    rw [← h1, ← h2, haversine_km_self]
    exact hr
  · intro e _ elat elng hlat hlng hgt hmem
    exact absurd ((mem_radius_filter.mp hmem).2 elat elng hlat hlng)
      (not_le.mpr hgt)
  · intro e he hlat hlng
    refine mem_radius_filter.mpr ⟨he, ?_⟩
    intro elat elng h1 h2
    rw [hlat] at h1
    cases h1

theorem C3_radius_filter_semantics_witness :
    get_events_for_query wOrigin 0 0 0 (dtNaive 0) (dtNaive 10000) =
      Except.ok (radius_filter 0 0 0 [evOrigin]) ∧
    evOrigin ∈ radius_filter 0 0 0 [evOrigin] := by
  have hEb : fetch_eventbrite_events wOrigin 0 0 0 (dtNaive 0)
      (dtNaive 10000) = Except.ok [evOrigin] := rfl
  have hCam : fetch_campus_events wOrigin (dtNaive 0) (dtNaive 10000) =
      Except.ok [] := rfl
  have hm : merge_and_dedupe [[evOrigin], []] = Except.ok [evOrigin] :=
    merge_and_dedupe_eq_ok rfl rfl (by simp)
  have h := C3_radius_filter_semantics wOrigin 0 0 0 (dtNaive 0)
    (dtNaive 10000) [evOrigin] [] [evOrigin] hEb hCam hm
  exact ⟨h.1, h.2.2.1 le_rfl evOrigin (List.mem_singleton_self _) rfl rfl⟩

/-- C10: an event carrying exactly one of `lat`/`lng` (or more generally
lacking either coordinate) is kept by the radius filter of
`get_events_for_query` unconditionally — its membership in the filtered
list is its membership in the input list, for every query origin and
radius, and no distance bound is ever imposed on it. -/
theorem C10_partial_geo_kept (qlat qlng r : ℝ) (e : Event)
    (h : e.lat = none ∨ e.lng = none) (l : List Event) :
    e ∈ radius_filter qlat qlng r l ↔ e ∈ l := by
  rw [mem_radius_filter]
  refine ⟨fun h' => h'.1, fun hm => ⟨hm, ?_⟩⟩
  intro elat elng h1 h2
  rcases h with h | h
  · rw [h] at h1; cases h1
  · rw [h] at h2; cases h2

theorem C10_partial_geo_kept_witness :
    (evOnlyLat.lat = none ∨ evOnlyLat.lng = none) ∧
      evOnlyLat ∈ radius_filter 3 4 0 [evOnlyLat] :=
  ⟨Or.inr rfl,
    (C10_partial_geo_kept 3 4 0 evOnlyLat (Or.inr rfl) [evOnlyLat]).mpr
      (List.mem_singleton_self _)⟩

/-- C6: an adapter whose required configuration is absent (no Eventbrite
token, no campus source url) returns the empty list instead of raising, and
when both configurations are absent the whole query returns the empty
list. -/
theorem C6_missing_config (w : World) (lat lng r : ℝ) (sd ed : PyDatetime) :
    (w.eventbrite_token = none →
      fetch_eventbrite_events w lat lng r sd ed = Except.ok []) ∧
    (w.campus_url = none → fetch_campus_events w sd ed = Except.ok []) ∧
    (w.eventbrite_token = none → w.campus_url = none →
      get_events_for_query w lat lng r sd ed = Except.ok []) := by
  refine ⟨?_, ?_, ?_⟩
  · intro h
    unfold fetch_eventbrite_events
    rw [h]
  · intro h
    unfold fetch_campus_events
    rw [h]
  · intro h1 h2
    have hEb : fetch_eventbrite_events w lat lng r sd ed = Except.ok [] := by
      unfold fetch_eventbrite_events; rw [h1]
    have hCam : fetch_campus_events w sd ed = Except.ok [] := by
      unfold fetch_campus_events; rw [h2]
    have hm : merge_and_dedupe [[], []] = Except.ok ([] : List Event) :=
      merge_and_dedupe_eq_ok rfl rfl (by simp)
    exact get_events_for_query_eq hEb hCam hm

theorem C6_missing_config_witness :
    fetch_eventbrite_events wNoConfig 1 2 3 (dtNaive 0) (dtNaive 9) =
      Except.ok [] ∧
    fetch_campus_events wNoConfig (dtNaive 0) (dtNaive 9) = Except.ok [] ∧
    get_events_for_query wNoConfig 1 2 3 (dtNaive 0) (dtNaive 9) =
      Except.ok [] :=
  ⟨(C6_missing_config wNoConfig 1 2 3 (dtNaive 0) (dtNaive 9)).1 rfl,
    (C6_missing_config wNoConfig 1 2 3 (dtNaive 0) (dtNaive 9)).2.1 rfl,
    (C6_missing_config wNoConfig 1 2 3 (dtNaive 0) (dtNaive 9)).2.2 rfl rfl⟩

theorem C1_net_failure_counterexample :
    fetch_campus_events wNetFail (dtNaive 0) (dtNaive 10000) =
      Except.ok [evArtWalk] ∧
    get_events_for_query wNetFail 0 0 10 (dtNaive 0) (dtNaive 10000) =
      Except.error PyErr.netError :=
  ⟨rfl, rfl⟩

/-- C1 (amended): missing configuration is non-fatal — with both adapters
unconfigured the query returns the empty list — but an upstream
network/HTTP failure in a configured adapter is not caught inside the
aggregation pipeline: it propagates out of `get_events_for_query` as the
exception, aborting the whole query instead of returning the other
adapters' results. -/
theorem C1_failure_propagation (w : World) (lat lng r : ℝ)
    (sd ed : PyDatetime) :
    (w.eventbrite_token = none → w.campus_url = none →
      get_events_for_query w lat lng r sd ed = Except.ok []) ∧
    (∀ t, w.eventbrite_token = some t → w.eventbrite_response = none →
      get_events_for_query w lat lng r sd ed = Except.error PyErr.netError) ∧
    (∀ eb, fetch_eventbrite_events w lat lng r sd ed = Except.ok eb →
      ∀ u, w.campus_url = some u → w.campus_response = none →
      get_events_for_query w lat lng r sd ed =
        Except.error PyErr.netError) := by
  refine ⟨?_, ?_, ?_⟩
  · intro h1 h2
    have hEb : fetch_eventbrite_events w lat lng r sd ed = Except.ok [] := by
      unfold fetch_eventbrite_events; rw [h1]
    have hCam : fetch_campus_events w sd ed = Except.ok [] := by
      unfold fetch_campus_events; rw [h2]
    have hm : merge_and_dedupe [[], []] = Except.ok ([] : List Event) :=
      merge_and_dedupe_eq_ok rfl rfl (by simp)
    exact get_events_for_query_eq hEb hCam hm
  · intro t ht hr
    unfold get_events_for_query fetch_eventbrite_events
    rw [ht, hr]
  · intro eb hEb u hu hr
    unfold get_events_for_query
    rw [hEb]
    show (match fetch_campus_events w sd ed with
      | Except.error err => Except.error err
      | Except.ok campus_events =>
        match merge_and_dedupe [eb, campus_events] with
        | Except.error err => Except.error err
        | Except.ok events => Except.ok (radius_filter lat lng r events)) =
      Except.error PyErr.netError
    unfold fetch_campus_events
    rw [hu, hr]

theorem C1_failure_propagation_witness :
    get_events_for_query wNoConfig 0 0 10 (dtNaive 0) (dtNaive 10000) =
      Except.ok [] ∧
    get_events_for_query wNetFail 0 0 10 (dtNaive 0) (dtNaive 10000) =
      Except.error PyErr.netError :=
  ⟨(C1_failure_propagation wNoConfig 0 0 10 (dtNaive 0) (dtNaive 10000)).1
      rfl rfl,
    (C1_failure_propagation wNetFail 0 0 10 (dtNaive 0) (dtNaive 10000)).2.1
      "token" rfl rfl⟩

/-- C5: refuted by evaluation — with both adapters configured and healthy,
the Eventbrite adapter produces a UTC-aware `start_time` (offset `+00:00`
from the `Z`-suffixed upstream timestamp) while the campus adapter
produces a naive one (from the assumed `"YYYY-MM-DD HH:MM"` format); the
two are not timezone-consistent, comparing them raises `TypeError`, and
the whole query aborts with that `TypeError` when the sort in
`merge_and_dedupe` compares them. -/
theorem C5_tz_mixing_failure :
    fetch_eventbrite_events wMixed 0 0 10 (dtNaive 0) (dtNaive 10000) =
      Except.ok [evConcert] ∧
    fetch_campus_events wMixed (dtNaive 0) (dtNaive 10000) =
      Except.ok [evLecture] ∧
    evConcert.start_time.offset = some 0 ∧
    evLecture.start_time.offset = none ∧
    pyLe evLecture.start_time evConcert.start_time =
      Except.error PyErr.typeError ∧
    get_events_for_query wMixed 0 0 10 (dtNaive 0) (dtNaive 10000) =
      Except.error PyErr.typeError :=
  ⟨rfl, rfl, rfl, rfl, rfl, rfl⟩

/-- C8: every event in the output of `get_events_for_query` is
field-for-field one of the events in the adapters' lists — the merge,
dedup, sort and radius-filter steps only select and reorder records, never
build new ones. -/
theorem C8_no_mutation (w : World) (lat lng r : ℝ) (sd ed : PyDatetime)
    (eb cam m : List Event)
    (hEb : fetch_eventbrite_events w lat lng r sd ed = Except.ok eb)
    (hCam : fetch_campus_events w sd ed = Except.ok cam)
    (hm : merge_and_dedupe [eb, cam] = Except.ok m) :
    get_events_for_query w lat lng r sd ed =
      Except.ok (radius_filter lat lng r m) ∧
    ∀ e ∈ radius_filter lat lng r m, e ∈ eb ∨ e ∈ cam := by
  refine ⟨get_events_for_query_eq hEb hCam hm, ?_⟩
  intro e he
  have hmem : e ∈ m := (mem_radius_filter.mp he).1
  obtain ⟨hout, _⟩ := merge_and_dedupe_ok hm
  rw [hout] at hmem
  have h1 := (List.mergeSort_perm _ eventLE).subset hmem
  have h2 := dedupeAux_subset h1
  simp only [List.flatten_cons, List.flatten_nil, List.append_nil] at h2
  exact List.mem_append.mp h2

theorem C8_no_mutation_witness :
    get_events_for_query wCampusOnly 0 0 10 (dtNaive 0) (dtNaive 10000) =
      Except.ok (radius_filter 0 0 10 [evArtWalk]) ∧
    (evArtWalk ∈ ([] : List Event) ∨ evArtWalk ∈ [evArtWalk]) := by
  have hm : merge_and_dedupe [[], [evArtWalk]] = Except.ok [evArtWalk] :=
    merge_and_dedupe_eq_ok rfl rfl (by simp)
  have h := C8_no_mutation wCampusOnly 0 0 10 (dtNaive 0) (dtNaive 10000)
    [] [evArtWalk] [evArtWalk] rfl rfl hm
  refine ⟨h.1, h.2 evArtWalk ?_⟩
  exact mem_radius_filter.mpr ⟨List.mem_singleton_self _,
    fun elat elng h1 h2 => Option.noConfusion h1⟩

theorem parseEBItem_geo {item : EBItem} {e : Event}
    (h : parseEBItem item = some e) :
    e.lat.isSome = (item.venue.getD EBVenue.empty).latitude.isSome ∧
    e.lng.isSome = (item.venue.getD EBVenue.empty).longitude.isSome := by
  obtain ⟨nm, ds, su, eu, ve, ur⟩ := item
  rcases su with _ | s
  · exact Option.noConfusion h
  rcases eu with _ | (_ | d)
  case mk.some.some.none => exact Option.noConfusion h
  all_goals
    rcases ve with _ | ⟨vn, a1, ci, re, pc, co, la, lo⟩
  · obtain rfl := Option.some.inj h
    exact ⟨rfl, rfl⟩
  · rcases la with _ | (_ | x) <;> rcases lo with _ | (_ | y) <;>
      first
      | exact Option.noConfusion h
      | (obtain rfl := Option.some.inj h; exact ⟨rfl, rfl⟩)
  · obtain rfl := Option.some.inj h
    exact ⟨rfl, rfl⟩
  · rcases la with _ | (_ | x) <;> rcases lo with _ | (_ | y) <;>
      first
      | exact Option.noConfusion h
      | (obtain rfl := Option.some.inj h; exact ⟨rfl, rfl⟩)

theorem parseCampusDiv_no_geo {pageUrl : String} {sd ed : PyDatetime}
    {div : CampusDiv} {e : Event}
    (h : parseCampusDiv pageUrl sd ed div = some e) :
    e.lat = none ∧ e.lng = none := by
  unfold parseCampusDiv at h
  split at h
  · exact Option.noConfusion h
  · split at h
    · exact Option.noConfusion h
    · exact Option.noConfusion h
    · obtain rfl := Option.some.inj h
      exact ⟨rfl, rfl⟩

theorem fetch_campus_no_geo {w : World} {sd ed : PyDatetime} {l : List Event}
    (h : fetch_campus_events w sd ed = Except.ok l) :
    ∀ e ∈ l, e.lat = none ∧ e.lng = none := by
  unfold fetch_campus_events at h
  split at h
  · obtain rfl := Except.ok.inj h
    intro e he
    exact absurd he (List.not_mem_nil e)
  · split at h
    · exact Except.noConfusion h
    · obtain rfl := Except.ok.inj h
      intro e he
      obtain ⟨div, _, hp⟩ := List.mem_filterMap.mp he
      exact parseCampusDiv_no_geo hp

theorem C7_geo_pairing_counterexample :
    fetch_eventbrite_events wHalf 0 0 10 (dtNaive 0) (dtNaive 10000) =
      Except.ok [evHalfGeo] ∧
    evHalfGeo.lat = some 40 ∧ evHalfGeo.lng = none ∧
    evHalfGeo.lat.isSome ≠ evHalfGeo.lng.isSome :=
  ⟨rfl, rfl, rfl, by decide⟩

/-- C7 (amended): the campus adapter always produces events with both
coordinates absent, while the Eventbrite adapter derives `lat` and `lng`
independently from the upstream venue's `latitude` and `longitude` fields:
each is present on the event exactly when present upstream, so an event has
both present or both absent exactly when the upstream venue supplies both
coordinates or neither — an upstream venue carrying exactly one coordinate
yields an event carrying exactly one. -/
theorem C7_geo_pairing (item : EBItem) (e : Event) (w : World)
    (sd ed : PyDatetime) (l : List Event) :
    (parseEBItem item = some e →
      e.lat.isSome = (item.venue.getD EBVenue.empty).latitude.isSome ∧
      e.lng.isSome = (item.venue.getD EBVenue.empty).longitude.isSome) ∧
    (parseEBItem item = some e →
      (item.venue.getD EBVenue.empty).latitude.isSome =
        (item.venue.getD EBVenue.empty).longitude.isSome →
      e.lat.isSome = e.lng.isSome) ∧
    (fetch_campus_events w sd ed = Except.ok l →
      ∀ e' ∈ l, e'.lat = none ∧ e'.lng = none) := by
  refine ⟨fun h => parseEBItem_geo h, fun h hsame => ?_, fun h => fetch_campus_no_geo h⟩
  obtain ⟨h1, h2⟩ := parseEBItem_geo h
  rw [h1, h2, hsame]

theorem C7_geo_pairing_witness :
    parseEBItem ebItemOrigin = some evOrigin ∧
    (evOrigin.lat.isSome =
        (ebItemOrigin.venue.getD EBVenue.empty).latitude.isSome ∧
      evOrigin.lng.isSome =
        (ebItemOrigin.venue.getD EBVenue.empty).longitude.isSome) ∧
    (∀ e' ∈ ([] : List Event), e'.lat = none ∧ e'.lng = none) :=
  ⟨rfl,
    (C7_geo_pairing ebItemOrigin evOrigin wNoConfig (dtNaive 0) (dtNaive 9)
      []).1 rfl,
    (C7_geo_pairing ebItemOrigin evOrigin wNoConfig (dtNaive 0) (dtNaive 9)
      []).2.2 rfl⟩
